import Mathlib

/-!
Verification of the state-synchronization core of the `edge-currency-accountbased`
Ethereum wallet engine (`src/ethereum/ethEngine.js`).  The file shallowly embeds
the relevant functions of the source: the balance/height/nonce/history merge
(`processEthereumNetworkUpdate`, `updateBalance`, `checkAccountNonceFetch`),
the scheduler guard (`checkAndUpdate`), the nonce allocation performed inside
`signTx`, the fixed-page transaction pagination (`checkTxsEthscan`), the
transaction classifiers (`processEtherscanTransaction`,
`processAlethioTransaction`) and the spend-entry checks of `makeSpend`.

Modelling conventions:
* `biggystring` decimal strings are kept as `String` where the source stores
  strings (balances, nonces); the library's exact big-integer arithmetic is
  modelled by parsing to `Int`/`Nat` and re-rendering to a canonical decimal
  string.  `bns.eq` is numeric equality of the parsed values.
* A JavaScript `number` that may be `NaN` (the result of `parseInt`) is
  modelled by the `JSNum` type; JS truthiness of such a number is `false`
  exactly for `NaN` and `0`.
* Callback invocations (`onBlockHeightChanged`, `onBalanceChanged`,
  `onTransactionsChanged`, `checkDroppedTransactionsThrottled`,
  `updateOnAddressesChecked`) are modelled as an emitted `Event` list, in
  invocation order.
* JS objects used as string-keyed maps are modelled as association lists.
* String functions are written over `String.data` (structural list recursion)
  so that every definition evaluates inside the kernel.
-/

/-- Decimal value of a digit list (most significant first), so leading zeros
do not change the value. -/
def decVal (cs : List Char) : Nat :=
  cs.foldl (fun a c => a * 10 + (c.toNat - 48)) 0

/-- Decimal-digit parse of a string: the numeric denotation used by the
`biggystring` operations on non-negative decimal strings. -/
def parseDec (s : String) : Nat := decVal s.data

/-- Signed decimal parse, handling a leading minus sign. -/
def parseDecI (s : String) : Int :=
  match s.data with
  | '-' :: rest => -(decVal rest : Int)
  | cs => (decVal cs : Int)

/-- True when the string is a plain non-empty decimal-digit string, the shape
of every balance/nonce string the providers and `biggystring` produce. -/
def isDecDigits (s : String) : Bool :=
  !s.data.isEmpty && s.data.all Char.isDigit

/-- Canonical decimal rendering of an integer, the output format of the
`biggystring` arithmetic operations. -/
def intToDecStr (i : Int) : String :=
  if i < 0 then "-" ++ Nat.repr i.natAbs else Nat.repr i.natAbs

/-- Model of `bns.eq` on decimal strings: numeric equality of the denoted
big integers (so `"1"` and `"01"` are equal). -/
def bns_eq (x y : String) : Bool := parseDec x == parseDec y

/-- Model of `bns.add` on decimal strings. -/
def bns_add (x y : String) : String := intToDecStr (parseDecI x + parseDecI y)

/-- Model of `bns.sub` on decimal strings. -/
def bns_sub (x y : String) : String := intToDecStr (parseDecI x - parseDecI y)

/-- Model of `bns.mul` on decimal strings, as an integer product. -/
def bns_mulI (x y : String) : Int := parseDecI x * parseDecI y

/-- Model of `bns.gt` on decimal strings. -/
def bns_gt (x y : String) : Bool := parseDecI y < parseDecI x

/-- Model of `bns.lte` on decimal strings. -/
def bns_lte (x y : String) : Bool := parseDecI x ≤ parseDecI y

/-- A JavaScript number that may be `NaN` (e.g. the result of `parseInt` on a
non-numeric string). -/
inductive JSNum where
  | nan : JSNum
  | num : Int → JSNum
deriving DecidableEq

/-- JS truthiness of a number: `NaN` and `0` are falsy. -/
def JSNum.truthy : JSNum → Bool
  | .nan => false
  | .num n => n != 0

/-- Hexadecimal digit test used by the `parseInt(_, 16)` model. -/
def isHexDigitChar (c : Char) : Bool :=
  c.isDigit || ('a' ≤ c && c ≤ 'f') || ('A' ≤ c && c ≤ 'F')

/-- Value of a hexadecimal digit. -/
def hexDigitVal (c : Char) : Nat :=
  if c.isDigit then c.toNat - 48
  else if 'a' ≤ c && c ≤ 'f' then c.toNat - 87
  else c.toNat - 55

/-- Hexadecimal value of a digit list (most significant first). -/
def hexVal (cs : List Char) : Nat :=
  cs.foldl (fun a c => a * 16 + hexDigitVal c) 0

/-- Model of JavaScript `parseInt(s, 16)`: optional sign, optional `0x`/`0X`
prefix, then the longest run of hex digits; no digits at all gives `NaN`. -/
def parseInt16 (s : String) : JSNum :=
  let (neg, cs) :=
    match s.data with
    | '-' :: rest => (true, rest)
    | '+' :: rest => (false, rest)
    | cs => (false, cs)
  let cs2 :=
    match cs with
    | '0' :: 'x' :: rest => rest
    | '0' :: 'X' :: rest => rest
    | cs => cs
  let digits := cs2.takeWhile isHexDigitChar
  if digits.isEmpty then .nan
  else .num (if neg then -(hexVal digits : Int) else (hexVal digits : Int))

/-- Model of JavaScript `parseInt(s)` (base 10): optional sign then the
longest run of decimal digits; no digits gives `NaN`. -/
def parseInt10 (s : String) : JSNum :=
  let (neg, cs) :=
    match s.data with
    | '-' :: rest => (true, rest)
    | '+' :: rest => (false, rest)
    | cs => (false, cs)
  let digits := cs.takeWhile Char.isDigit
  if digits.isEmpty then .nan
  else .num (if neg then -(decVal digits : Int) else (decVal digits : Int))

/-- Model of JavaScript `String.prototype.toLowerCase` for ASCII data such as
hex addresses. -/
def toLowerStr (s : String) : String := ⟨s.data.map Char.toLower⟩

/-- Lookup in a string-keyed association list (a JS object used as a map). -/
def getVal {α : Type} : List (String × α) → String → Option α
  | [], _ => none
  | (k', v') :: rest, k => if k' = k then some v' else getVal rest k

/-- Update or insert in a string-keyed association list. -/
def setVal {α : Type} : List (String × α) → String → α → List (String × α)
  | [], k, v => [(k, v)]
  | (k', v') :: rest, k, v =>
      if k' = k then (k, v) :: rest else (k', v') :: setVal rest k v

theorem getVal_setVal_self {α : Type} (l : List (String × α)) (k : String) (v : α) :
    getVal (setVal l k v) k = some v := by
  induction l with
  | nil => simp [getVal, setVal]
  | cons hd tl ih =>
    obtain ⟨k', v'⟩ := hd
    by_cases h : k' = k <;> simp [getVal, setVal, h, ih]

theorem getVal_setVal_ne {α : Type} (l : List (String × α)) (k k' : String) (v : α)
    (h : k ≠ k') : getVal (setVal l k v) k' = getVal l k' := by
  induction l with
  | nil => simp [getVal, setVal, h]
  | cons hd tl ih =>
    obtain ⟨k0, v0⟩ := hd
    by_cases h0 : k0 = k
    · subst h0
      simp [getVal, setVal, h]
    · simp only [setVal, if_neg h0, getVal]
      by_cases h1 : k0 = k' <;> simp [getVal, h1, ih]

/-- Transaction record (`EdgeTransaction`) as produced by the processors.
Numeric amount fields carry the exact big integers the `biggystring`
strings denote; `blockHeight` and `date` keep the possibly-`NaN` result of
`parseInt`. -/
structure EdgeTx where
  txid : String
  currencyCode : String
  blockHeight : JSNum
  date : JSNum
  nativeAmount : Int
  networkFee : Int
  parentNetworkFee : Option Int
  ourReceiveAddresses : List String
deriving DecidableEq

/-- Callback invocations emitted by the engine, in invocation order. -/
inductive Event where
  | droppedTransactionsCheck : Event
  | onBlockHeightChanged : Int → Event
  | onBalanceChanged : String → String → Event
  | onTransactionsChanged : List EdgeTx → Event
  | addressesChecked : Event
deriving DecidableEq

/-- Classifier for the two callbacks of the block-height merge branch. -/
def Event.isHeightEvent : Event → Bool
  | .droppedTransactionsCheck => true
  | .onBlockHeightChanged _ => true
  | _ => false

/-- The nonce fields of `walletLocalData.otherData`: both are decimal strings
in the source (`nextNonce` is the confirmed nonce). -/
structure OtherData where
  nextNonce : String
  unconfirmedNextNonce : String
deriving DecidableEq

/-- The wallet-local snapshot fields touched by the embedded operations. -/
structure WalletLocalData where
  blockHeight : Int
  otherData : OtherData
  totalBalances : List (String × String)
  lastTransactionQueryHeight : List (String × Int)
deriving DecidableEq

/-- The per-resource `lastChecked` timestamps of `EthereumNeeds`. -/
structure EthereumNeeds where
  blockHeightLastChecked : Int
  nonceLastChecked : Int
  tokenBalLastChecked : List (String × Int)
  tokenTxsLastChecked : List (String × Int)
deriving DecidableEq

/-- Engine state reachable from the embedded operations: the snapshot, the
dirty flag, the poll timestamps, the per-token status maps and the
transaction list with its pending changed-set. -/
structure EngineState where
  walletLocalData : WalletLocalData
  walletLocalDataDirty : Bool
  ethNeeds : EthereumNeeds
  tokenCheckBalanceStatus : List (String × Nat)
  tokenCheckTransactionsStatus : List (String × Nat)
  transactionList : List EdgeTx
  transactionsChangedArray : List EdgeTx
deriving DecidableEq

/-- Embedding of `EthereumEngine.updateBalance` (ethEngine.js lines 181-192):
initialize an undefined stored balance to `"0"`, then compare the fetched
string to the stored string with `bns.eq` (numeric comparison); only on
numeric inequality store the new string and fire `onBalanceChanged`; always
mark the token balance-checked and report address progress. -/
def updateBalance (st : EngineState) (tk balance : String) : EngineState × List Event :=
  let st1 :=
    if (getVal st.walletLocalData.totalBalances tk).isNone then
      { st with walletLocalData :=
        { st.walletLocalData with
          totalBalances := setVal st.walletLocalData.totalBalances tk "0" } }
    else st
  let stored := (getVal st1.walletLocalData.totalBalances tk).getD "0"
  let changed := !bns_eq balance stored
  let st2 :=
    if changed then
      { st1 with walletLocalData :=
          { st1.walletLocalData with
            totalBalances := setVal st1.walletLocalData.totalBalances tk balance } }
    else st1
  let evs := if changed then [Event.onBalanceChanged tk balance] else []
  let st3 := { st2 with tokenCheckBalanceStatus := setVal st2.tokenCheckBalanceStatus tk 1 }
  (st3, evs ++ [Event.addressesChecked])

/-- An engine state used by the concrete runs below: wallet with a single
stored ETH balance string, clean flags, zeroed poll timestamps. -/
def mkBalState (bal : String) : EngineState :=
  { walletLocalData :=
      { blockHeight := 0
        otherData := { nextNonce := "0", unconfirmedNextNonce := "0" }
        totalBalances := [("ETH", bal)]
        lastTransactionQueryHeight := [] }
    walletLocalDataDirty := false
    ethNeeds :=
      { blockHeightLastChecked := 0, nonceLastChecked := 0
        tokenBalLastChecked := [], tokenTxsLastChecked := [] }
    tokenCheckBalanceStatus := []
    tokenCheckTransactionsStatus := []
    transactionList := []
    transactionsChangedArray := [] }

/-- The claim C1 asserts the comparison is exact string equality; the code
uses `bns.eq`, so this concrete run refutes it: stored balance `"1"`,
fetched `"01"` — no `onBalanceChanged` fires and the stored value stays
`"1"`. -/
theorem C1_counterexample :
    (updateBalance (mkBalState "1") "ETH" "01").2 = [Event.addressesChecked] ∧
    getVal (updateBalance (mkBalState "1") "ETH" "01").1.walletLocalData.totalBalances
      "ETH" = some "1" := by
  constructor <;> decide

/-- Amended C1: the balance-changed notification fires iff the fetched
decimal string differs from the stored one numerically (big-number
comparison via `bns.eq`, an absent stored balance counting as `"0"`), and
when it fires the stored value becomes the fetched string, otherwise the
stored value is the old one. -/
theorem C1_amended_balance_notification (st : EngineState) (tk balance : String)
    (hb : isDecDigits balance = true)
    (hs : ∀ v, getVal st.walletLocalData.totalBalances tk = some v →
      isDecDigits v = true) :
    ((Event.onBalanceChanged tk balance) ∈ (updateBalance st tk balance).2 ↔
      parseDec balance ≠
        parseDec ((getVal st.walletLocalData.totalBalances tk).getD "0")) ∧
    getVal (updateBalance st tk balance).1.walletLocalData.totalBalances tk =
      some
        (if parseDec balance ≠
            parseDec ((getVal st.walletLocalData.totalBalances tk).getD "0") then
          balance
        else (getVal st.walletLocalData.totalBalances tk).getD "0") := by
  cases h : getVal st.walletLocalData.totalBalances tk with
  | none =>
    by_cases hne : parseDec balance = parseDec "0" <;>
      simp [updateBalance, h, bns_eq, hne, getVal_setVal_self]
  | some v =>
    by_cases hne : parseDec balance = parseDec v <;>
      simp [updateBalance, h, bns_eq, hne, getVal_setVal_self]

/-- Witness for the amended C1 at a concrete input: stored `"7"`, fetched
`"8"` — notification fires and the stored value becomes `"8"`. -/
theorem C1_amended_balance_notification_witness :
    (Event.onBalanceChanged "ETH" "8") ∈ (updateBalance (mkBalState "7") "ETH" "8").2 ∧
    getVal (updateBalance (mkBalState "7") "ETH" "8").1.walletLocalData.totalBalances
      "ETH" = some "8" := by
  have h := C1_amended_balance_notification (mkBalState "7") "ETH" "8" (by decide)
    (by
      intro v hv
      have hg : getVal (mkBalState "7").walletLocalData.totalBalances "ETH" =
          some "7" := by decide
      rw [hg] at hv
      injection hv with h7
      rw [← h7]
      decide)
  have h1 := h.1
  have h2 := h.2
  have hg : getVal (mkBalState "7").walletLocalData.totalBalances "ETH" = some "7" := by
    decide
  rw [hg] at h1 h2
  have hne : parseDec "8" ≠ parseDec (Option.getD (some "7") "0") := by decide
  refine ⟨h1.mpr hne, ?_⟩
  rw [h2, if_pos hne]

/-- Tuple of processed transactions plus the start block for one currency
code (`EdgeTransactionsBlockHeightTuple`). -/
structure EdgeTransactionsBlockHeightTuple where
  blockHeight : Int
  edgeTransactions : List EdgeTx
deriving DecidableEq

/-- Fact set produced by one fetch (`EthereumNetworkUpdate`).  The `nonce`
field is a decimal string at runtime (`checkNonce` builds it with
`bns.add`).  The `server` label is diagnostics only and omitted.  An absent
field is `none`; a recovered failure is the update with every field
absent. -/
structure EthereumNetworkUpdate where
  blockHeight : Option JSNum := none
  nonce : Option String := none
  tokenBal : Option (List (String × String)) := none
  tokenTxs : Option (List (String × EdgeTransactionsBlockHeightTuple)) := none
deriving DecidableEq

/-- The update produced when a fetch fails and is recovered to `{}`. -/
def emptyUpdate : EthereumNetworkUpdate := {}

/-- An update carrying only a fetched block height. -/
def blockHeightUpdate (h : Int) : EthereumNetworkUpdate :=
  { blockHeight := some (JSNum.num h) }

/-- An update carrying only a fetched confirmed-nonce string. -/
def nonceUpdate (s : String) : EthereumNetworkUpdate := { nonce := some s }

/-- Block-height branch of `processEthereumNetworkUpdate` (ethEngine.js lines
2212-2227): skipped when the height is JS-falsy (absent, `NaN`, or `0`);
when the truthy height differs from the stored one, stamp
`blockHeightLastChecked`, invoke the dropped-transaction rollback check,
store the height, set the dirty flag and fire `onBlockHeightChanged`. -/
def mergeBlockHeight (now : Int) (u : EthereumNetworkUpdate) (st : EngineState) :
    EngineState × List Event :=
  match u.blockHeight with
  | some (JSNum.num h) =>
    if h ≠ 0 then
      if st.walletLocalData.blockHeight ≠ h then
        ({ st with
            ethNeeds := { st.ethNeeds with blockHeightLastChecked := now }
            walletLocalData := { st.walletLocalData with blockHeight := h }
            walletLocalDataDirty := true },
          [Event.droppedTransactionsCheck, Event.onBlockHeightChanged h])
      else (st, [])
    else (st, [])
  | _ => (st, [])

/-- Nonce branch of `processEthereumNetworkUpdate` (ethEngine.js lines
2229-2237): when the update carries a (truthy, i.e. non-empty) nonce
string, stamp `nonceLastChecked`, overwrite `nextNonce` and set the dirty
flag — with no comparison against the stored value. -/
def mergeNonce (now : Int) (u : EthereumNetworkUpdate) (st : EngineState) : EngineState :=
  match u.nonce with
  | some s =>
    if s ≠ "" then
      { st with
          ethNeeds := { st.ethNeeds with nonceLastChecked := now }
          walletLocalData := { st.walletLocalData with
            otherData := { st.walletLocalData.otherData with nextNonce := s } }
          walletLocalDataDirty := true }
    else st
  | none => st

/-- One step of the token-balance branch: stamp `tokenBalLastChecked[tk]` and
run `updateBalance`. -/
def mergeTokenBalStep (now : Int) (acc : EngineState × List Event)
    (kv : String × String) : EngineState × List Event :=
  let st1 := { acc.1 with ethNeeds :=
      { acc.1.ethNeeds with
        tokenBalLastChecked := setVal acc.1.ethNeeds.tokenBalLastChecked kv.1 now } }
  let r := updateBalance st1 kv.1 kv.2
  (r.1, acc.2 ++ r.2)

/-- Token-balance branch of `processEthereumNetworkUpdate` (ethEngine.js
lines 2239-2247): for every key of the fact set, stamp its timestamp and
merge the balance. -/
def mergeTokenBal (now : Int) (u : EthereumNetworkUpdate) (st : EngineState) :
    EngineState × List Event :=
  match u.tokenBal with
  | some l => l.foldl (mergeTokenBalStep now) (st, [])
  | none => (st, [])

/-- Upsert of one transaction record by id into the transaction list.
Modelled from the spec: the superclass `addTransaction` lives in
`common/engine.js`, outside the given source; §4.5 specifies merge by id
(insert if unseen, else update in place) and the changed set fed to the
coalesced `onTransactionsChanged`. -/
def upsertTx (l : List EdgeTx) (tx : EdgeTx) : List EdgeTx :=
  if l.any (fun t => t.txid == tx.txid) then
    l.map (fun t => if t.txid == tx.txid then tx else t)
  else l ++ [tx]

/-- Modelled from the spec: `addTransaction` of the common engine — upsert by
id and record the transaction in the pending changed set. -/
def addTransaction (st : EngineState) (tx : EdgeTx) : EngineState :=
  { st with
      transactionList := upsertTx st.transactionList tx
      transactionsChangedArray := st.transactionsChangedArray ++ [tx] }

/-- One step of the transaction-history branch: stamp
`tokenTxsLastChecked[tk]`, mark the token's transactions checked, merge
every record (the JS guard `if (tuple.edgeTransactions)` is always true
for an array) and record `lastTransactionQueryHeight[tk] :=
preUpdateBlockHeight`. -/
def mergeTokenTxsStep (now preUpdateBlockHeight : Int)
    (acc : EngineState × List Event)
    (kv : String × EdgeTransactionsBlockHeightTuple) : EngineState × List Event :=
  let st1 := { acc.1 with
      ethNeeds := { acc.1.ethNeeds with
        tokenTxsLastChecked := setVal acc.1.ethNeeds.tokenTxsLastChecked kv.1 now }
      tokenCheckTransactionsStatus := setVal acc.1.tokenCheckTransactionsStatus kv.1 1 }
  let st2 := kv.2.edgeTransactions.foldl addTransaction st1
  let st3 := { st2 with walletLocalData :=
      { st2.walletLocalData with
        lastTransactionQueryHeight :=
          setVal st2.walletLocalData.lastTransactionQueryHeight kv.1
            preUpdateBlockHeight } }
  (st3, acc.2)

/-- Transaction-history branch of `processEthereumNetworkUpdate`
(ethEngine.js lines 2249-2268), ending with `updateOnAddressesChecked`. -/
def mergeTokenTxs (now preUpdateBlockHeight : Int) (u : EthereumNetworkUpdate)
    (st : EngineState) : EngineState × List Event :=
  match u.tokenTxs with
  | some l =>
    let r := l.foldl (mergeTokenTxsStep now preUpdateBlockHeight) (st, [])
    (r.1, r.2 ++ [Event.addressesChecked])
  | none => (st, [])

/-- Final flush of `processEthereumNetworkUpdate` (ethEngine.js lines
2270-2275): fire one coalesced `onTransactionsChanged` when the pending
changed set is non-empty, then clear it. -/
def flushTransactionsChanged (st : EngineState) : EngineState × List Event :=
  if st.transactionsChangedArray ≠ [] then
    ({ st with transactionsChangedArray := [] },
      [Event.onTransactionsChanged st.transactionsChangedArray])
  else (st, [])

/-- Embedding of `EthereumNetwork.processEthereumNetworkUpdate` (ethEngine.js
lines 2206-2276): the four merge branches in source order followed by the
coalesced transactions-changed flush; the returned list is every callback
invocation in order. -/
def processEthereumNetworkUpdate (now : Int) (u : EthereumNetworkUpdate)
    (preUpdateBlockHeight : Int) (st : EngineState) : EngineState × List Event :=
  let r1 := mergeBlockHeight now u st
  let st2 := mergeNonce now u r1.1
  let r3 := mergeTokenBal now u st2
  let r4 := mergeTokenTxs now preUpdateBlockHeight u r3.1
  let r5 := flushTransactionsChanged r4.1
  (r5.1, r1.2 ++ r3.2 ++ r4.2 ++ r5.2)

/-- Embedding of `EthereumNetwork.checkAndUpdate` (ethEngine.js lines
2141-2152): invoke the fetch-and-merge only when more than `pollMillisec`
has elapsed since `lastChecked` (an untracked key defaults to `0`); the
fetched update is the outcome of the fetch, an empty update standing for a
recovered failure. -/
def checkAndUpdate (now : Int) (lastChecked : Option Int) (pollMillisec : Int)
    (preUpdateBlockHeight : Int) (fetched : EthereumNetworkUpdate)
    (st : EngineState) : EngineState × List Event :=
  if now - lastChecked.getD 0 > pollMillisec then
    processEthereumNetworkUpdate now fetched preUpdateBlockHeight st
  else (st, [])

/-- The claim C2 asserts `lastChecked` is stamped after every invoked
fetch-and-merge regardless of outcome.  Concrete refutation: at time 1000
the scheduler invokes the fetch (the guard `1000 - 0 > 100` holds), the
fetch fails and is recovered to the empty update, and the merge leaves
every `lastChecked` at `0` — so at time 1001, only 1 ms after the failed
attempt and well inside the 100 ms interval, the guard fires again. -/
theorem C2_counterexample :
    ((1000 : Int) - 0 > 100) ∧
    (checkAndUpdate 1000 (some 0) 100 0 emptyUpdate
        (mkBalState "1")).1.ethNeeds.blockHeightLastChecked ≠ 1000 ∧
    (checkAndUpdate 1000 (some 0) 100 0 emptyUpdate
        (mkBalState "1")).1.ethNeeds.nonceLastChecked ≠ 1000 ∧
    ((1001 : Int) -
      (checkAndUpdate 1000 (some 0) 100 0 emptyUpdate
        (mkBalState "1")).1.ethNeeds.blockHeightLastChecked > 100) ∧
    ((1001 : Int) - 1000 < 100) := by
  refine ⟨by decide, by decide, by decide, by decide, by decide⟩

/-- An engine state with the given confirmed/unconfirmed nonce strings and
the given stored block height, otherwise clean. -/
def mkNonceHeightState (next unconf : String) (height : Int) : EngineState :=
  { walletLocalData :=
      { blockHeight := height
        otherData := { nextNonce := next, unconfirmedNextNonce := unconf }
        totalBalances := []
        lastTransactionQueryHeight := [] }
    walletLocalDataDirty := false
    ethNeeds :=
      { blockHeightLastChecked := 0, nonceLastChecked := 0
        tokenBalLastChecked := [], tokenTxsLastChecked := [] }
    tokenCheckBalanceStatus := []
    tokenCheckTransactionsStatus := []
    transactionList := []
    transactionsChangedArray := [] }

/-- An engine state with the given nonce strings, stored height `0`. -/
def mkNonceState (next unconf : String) : EngineState :=
  mkNonceHeightState next unconf 0

/-- The claim C4 asserts merging a fresh confirmed nonce raises
`nextUnconfirmedNonce` to `max(nextUnconfirmedNonce, confirmedNonce)` so
that `nextUnconfirmedNonce >= confirmedNonce` holds after the merge.
Concrete refutation: merging confirmed nonce `"10"` into a state with
`nextNonce = "5"`, `unconfirmedNextNonce = "5"` stores `"10"` but leaves
`unconfirmedNextNonce = "5"`, numerically below the merged confirmed
nonce. -/
theorem C4_counterexample :
    (processEthereumNetworkUpdate 1000 (nonceUpdate "10") 0
        (mkNonceState "5" "5")).1.walletLocalData.otherData.nextNonce = "10" ∧
    (processEthereumNetworkUpdate 1000 (nonceUpdate "10") 0
        (mkNonceState "5" "5")).1.walletLocalData.otherData.unconfirmedNextNonce =
      "5" ∧
    parseDecI "5" < parseDecI "10" := by
  refine ⟨by decide, by decide, by decide⟩

/-- The claim C5 asserts every differing fetched height triggers
rollback-update-notify.  Concrete refutation: a fetched height `0` against
stored height `5` differs, yet the merge leaves the state untouched and
fires nothing (the JS truthiness guard skips height `0`). -/
theorem C5_counterexample :
    ((0 : Int) ≠ (mkNonceHeightState "0" "0" 5).walletLocalData.blockHeight) ∧
    processEthereumNetworkUpdate 1000 (blockHeightUpdate 0) 0
        (mkNonceHeightState "0" "0" 5) =
      (mkNonceHeightState "0" "0" 5, []) := by
  refine ⟨by decide, by decide⟩

/-- The claim C8 asserts the merge updates the stored nonce and dirty flag
only when the fetched nonce differs.  Concrete refutation: merging nonce
`"5"` equal to the stored `"5"` still sets the dirty flag (and stamps the
timestamp), so the state is not left unchanged. -/
theorem C8_counterexample :
    (mkNonceState "5" "5").walletLocalDataDirty = false ∧
    (mkNonceState "5" "5").walletLocalData.otherData.nextNonce = "5" ∧
    (processEthereumNetworkUpdate 1000 (nonceUpdate "5") 0
        (mkNonceState "5" "5")).1.walletLocalDataDirty = true := by
  refine ⟨by decide, by decide, by decide⟩

/-- Generic preservation of a predicate along a left fold. -/
theorem foldl_invariant {α β : Type} (f : β → α → β) (P : β → Prop)
    (step : ∀ b a, P b → P (f b a)) :
    ∀ (l : List α) (b : β), P b → P (l.foldl f b) := by
  intro l
  induction l with
  | nil => intro b hb; exact hb
  | cons hd tl ih => intro b hb; exact ih (f b hd) (step b hd hb)

theorem updateBalance_ethNeeds (st : EngineState) (tk b : String) :
    (updateBalance st tk b).1.ethNeeds = st.ethNeeds := by
  simp only [updateBalance]
  split <;> split <;> rfl

theorem updateBalance_blockHeight (st : EngineState) (tk b : String) :
    (updateBalance st tk b).1.walletLocalData.blockHeight =
      st.walletLocalData.blockHeight := by
  simp only [updateBalance]
  split <;> split <;> rfl

theorem updateBalance_otherData (st : EngineState) (tk b : String) :
    (updateBalance st tk b).1.walletLocalData.otherData =
      st.walletLocalData.otherData := by
  simp only [updateBalance]
  split <;> split <;> rfl

theorem updateBalance_lastTxQueryHeight (st : EngineState) (tk b : String) :
    (updateBalance st tk b).1.walletLocalData.lastTransactionQueryHeight =
      st.walletLocalData.lastTransactionQueryHeight := by
  simp only [updateBalance]
  split <;> split <;> rfl

theorem updateBalance_dirty (st : EngineState) (tk b : String) :
    (updateBalance st tk b).1.walletLocalDataDirty = st.walletLocalDataDirty := by
  simp only [updateBalance]
  split <;> split <;> rfl

theorem updateBalance_transactionList (st : EngineState) (tk b : String) :
    (updateBalance st tk b).1.transactionList = st.transactionList := by
  simp only [updateBalance]
  split <;> split <;> rfl

theorem updateBalance_transactionsChangedArray (st : EngineState) (tk b : String) :
    (updateBalance st tk b).1.transactionsChangedArray =
      st.transactionsChangedArray := by
  simp only [updateBalance]
  split <;> split <;> rfl

theorem updateBalance_events (st : EngineState) (tk b : String) :
    ∀ e ∈ (updateBalance st tk b).2,
      e = Event.addressesChecked ∨ e = Event.onBalanceChanged tk b := by
  simp only [updateBalance]
  split <;> split <;> simp

theorem mergeNonce_frame (now : Int) (u : EthereumNetworkUpdate) (st : EngineState) :
    (mergeNonce now u st).walletLocalData.blockHeight =
      st.walletLocalData.blockHeight ∧
    (mergeNonce now u st).walletLocalData.otherData.unconfirmedNextNonce =
      st.walletLocalData.otherData.unconfirmedNextNonce ∧
    (mergeNonce now u st).walletLocalData.totalBalances =
      st.walletLocalData.totalBalances ∧
    (mergeNonce now u st).walletLocalData.lastTransactionQueryHeight =
      st.walletLocalData.lastTransactionQueryHeight ∧
    (mergeNonce now u st).ethNeeds.blockHeightLastChecked =
      st.ethNeeds.blockHeightLastChecked ∧
    (mergeNonce now u st).ethNeeds.tokenBalLastChecked =
      st.ethNeeds.tokenBalLastChecked ∧
    (mergeNonce now u st).ethNeeds.tokenTxsLastChecked =
      st.ethNeeds.tokenTxsLastChecked ∧
    (mergeNonce now u st).tokenCheckBalanceStatus = st.tokenCheckBalanceStatus ∧
    (mergeNonce now u st).tokenCheckTransactionsStatus =
      st.tokenCheckTransactionsStatus ∧
    (mergeNonce now u st).transactionList = st.transactionList ∧
    (mergeNonce now u st).transactionsChangedArray =
      st.transactionsChangedArray := by
  unfold mergeNonce
  split
  · split <;> simp
  · simp

theorem mergeNonce_set (now : Int) (u : EthereumNetworkUpdate) (st : EngineState)
    (s : String) (h : u.nonce = some s) (hs : s ≠ "") :
    (mergeNonce now u st).ethNeeds.nonceLastChecked = now ∧
    (mergeNonce now u st).walletLocalData.otherData.nextNonce = s ∧
    (mergeNonce now u st).walletLocalDataDirty = true := by
  unfold mergeNonce
  rw [h]
  simp [hs]

theorem mergeBlockHeight_falsy (now : Int) (u : EthereumNetworkUpdate)
    (st : EngineState)
    (h : u.blockHeight = none ∨ u.blockHeight = some JSNum.nan ∨
      u.blockHeight = some (JSNum.num 0)) :
    mergeBlockHeight now u st = (st, []) := by
  unfold mergeBlockHeight
  rcases h with h | h | h <;> rw [h] <;> simp

theorem mergeBlockHeight_set (now : Int) (st : EngineState) (h : Int)
    (hne0 : h ≠ 0) (hne : st.walletLocalData.blockHeight ≠ h)
    (u : EthereumNetworkUpdate) (hu : u.blockHeight = some (JSNum.num h)) :
    mergeBlockHeight now u st =
      ({ st with
          ethNeeds := { st.ethNeeds with blockHeightLastChecked := now }
          walletLocalData := { st.walletLocalData with blockHeight := h }
          walletLocalDataDirty := true },
        [Event.droppedTransactionsCheck, Event.onBlockHeightChanged h]) := by
  unfold mergeBlockHeight
  rw [hu]
  simp [hne0, hne]

theorem mergeBlockHeight_frame (now : Int) (u : EthereumNetworkUpdate)
    (st : EngineState) :
    (mergeBlockHeight now u st).1.walletLocalData.otherData =
      st.walletLocalData.otherData ∧
    (mergeBlockHeight now u st).1.walletLocalData.totalBalances =
      st.walletLocalData.totalBalances ∧
    (mergeBlockHeight now u st).1.walletLocalData.lastTransactionQueryHeight =
      st.walletLocalData.lastTransactionQueryHeight ∧
    (mergeBlockHeight now u st).1.ethNeeds.nonceLastChecked =
      st.ethNeeds.nonceLastChecked ∧
    (mergeBlockHeight now u st).1.ethNeeds.tokenBalLastChecked =
      st.ethNeeds.tokenBalLastChecked ∧
    (mergeBlockHeight now u st).1.ethNeeds.tokenTxsLastChecked =
      st.ethNeeds.tokenTxsLastChecked ∧
    (mergeBlockHeight now u st).1.tokenCheckBalanceStatus =
      st.tokenCheckBalanceStatus ∧
    (mergeBlockHeight now u st).1.tokenCheckTransactionsStatus =
      st.tokenCheckTransactionsStatus ∧
    (mergeBlockHeight now u st).1.transactionList = st.transactionList ∧
    (mergeBlockHeight now u st).1.transactionsChangedArray =
      st.transactionsChangedArray := by
  unfold mergeBlockHeight
  split
  · split
    · split <;> simp
    · simp
  · simp

theorem flushTransactionsChanged_frame (st : EngineState) :
    (flushTransactionsChanged st).1.walletLocalData = st.walletLocalData ∧
    (flushTransactionsChanged st).1.walletLocalDataDirty =
      st.walletLocalDataDirty ∧
    (flushTransactionsChanged st).1.ethNeeds = st.ethNeeds ∧
    ∀ e ∈ (flushTransactionsChanged st).2,
      ∃ t, e = Event.onTransactionsChanged t := by
  unfold flushTransactionsChanged
  split <;> simp

theorem mergeTokenBalStep_fst_ethNeeds (now : Int) (acc : EngineState × List Event)
    (kv : String × String) :
    (mergeTokenBalStep now acc kv).1.ethNeeds =
      { acc.1.ethNeeds with
        tokenBalLastChecked :=
          setVal acc.1.ethNeeds.tokenBalLastChecked kv.1 now } := by
  simp only [mergeTokenBalStep, updateBalance_ethNeeds]

theorem mergeTokenBalStep_events (now : Int) (acc : EngineState × List Event)
    (kv : String × String) :
    ∀ e ∈ (mergeTokenBalStep now acc kv).2,
      e ∈ acc.2 ∨ e = Event.addressesChecked ∨
        ∃ c v, e = Event.onBalanceChanged c v := by
  intro e he
  simp only [mergeTokenBalStep] at he
  rw [List.mem_append] at he
  rcases he with he | he
  · exact Or.inl he
  · rcases updateBalance_events _ _ _ e he with h | h
    · exact Or.inr (Or.inl h)
    · exact Or.inr (Or.inr ⟨_, _, h⟩)

theorem mergeTokenBal_fold_frame (now : Int) (l : List (String × String))
    (acc : EngineState × List Event) :
    (l.foldl (mergeTokenBalStep now) acc).1.walletLocalData.blockHeight =
      acc.1.walletLocalData.blockHeight ∧
    (l.foldl (mergeTokenBalStep now) acc).1.walletLocalData.otherData =
      acc.1.walletLocalData.otherData ∧
    (l.foldl (mergeTokenBalStep now) acc).1.walletLocalData.lastTransactionQueryHeight =
      acc.1.walletLocalData.lastTransactionQueryHeight ∧
    (l.foldl (mergeTokenBalStep now) acc).1.walletLocalDataDirty =
      acc.1.walletLocalDataDirty ∧
    (l.foldl (mergeTokenBalStep now) acc).1.ethNeeds.blockHeightLastChecked =
      acc.1.ethNeeds.blockHeightLastChecked ∧
    (l.foldl (mergeTokenBalStep now) acc).1.ethNeeds.nonceLastChecked =
      acc.1.ethNeeds.nonceLastChecked ∧
    (l.foldl (mergeTokenBalStep now) acc).1.ethNeeds.tokenTxsLastChecked =
      acc.1.ethNeeds.tokenTxsLastChecked ∧
    (l.foldl (mergeTokenBalStep now) acc).1.transactionList =
      acc.1.transactionList ∧
    (l.foldl (mergeTokenBalStep now) acc).1.transactionsChangedArray =
      acc.1.transactionsChangedArray ∧
    ∀ e ∈ (l.foldl (mergeTokenBalStep now) acc).2,
      e ∈ acc.2 ∨ e = Event.addressesChecked ∨
        ∃ c v, e = Event.onBalanceChanged c v := by
  refine foldl_invariant (mergeTokenBalStep now)
    (fun r =>
      r.1.walletLocalData.blockHeight = acc.1.walletLocalData.blockHeight ∧
      r.1.walletLocalData.otherData = acc.1.walletLocalData.otherData ∧
      r.1.walletLocalData.lastTransactionQueryHeight =
        acc.1.walletLocalData.lastTransactionQueryHeight ∧
      r.1.walletLocalDataDirty = acc.1.walletLocalDataDirty ∧
      r.1.ethNeeds.blockHeightLastChecked =
        acc.1.ethNeeds.blockHeightLastChecked ∧
      r.1.ethNeeds.nonceLastChecked = acc.1.ethNeeds.nonceLastChecked ∧
      r.1.ethNeeds.tokenTxsLastChecked = acc.1.ethNeeds.tokenTxsLastChecked ∧
      r.1.transactionList = acc.1.transactionList ∧
      r.1.transactionsChangedArray = acc.1.transactionsChangedArray ∧
      ∀ e ∈ r.2,
        e ∈ acc.2 ∨ e = Event.addressesChecked ∨
          ∃ c v, e = Event.onBalanceChanged c v)
    ?_ l acc
    ⟨rfl, rfl, rfl, rfl, rfl, rfl, rfl, rfl, rfl, fun _ he => Or.inl he⟩
  intro b a hb
  obtain ⟨h1, h2, h3, h4, h5, h6, h7, h8, h9, h10⟩ := hb
  refine ⟨?_, ?_, ?_, ?_, ?_, ?_, ?_, ?_, ?_, ?_⟩
  · simp only [mergeTokenBalStep, updateBalance_blockHeight]; exact h1
  · simp only [mergeTokenBalStep, updateBalance_otherData]; exact h2
  · simp only [mergeTokenBalStep, updateBalance_lastTxQueryHeight]; exact h3
  · simp only [mergeTokenBalStep, updateBalance_dirty]; exact h4
  · simp only [mergeTokenBalStep_fst_ethNeeds]; exact h5
  · simp only [mergeTokenBalStep_fst_ethNeeds]; exact h6
  · simp only [mergeTokenBalStep_fst_ethNeeds]; exact h7
  · simp only [mergeTokenBalStep, updateBalance_transactionList]; exact h8
  · simp only [mergeTokenBalStep, updateBalance_transactionsChangedArray]; exact h9
  · intro e he
    rcases mergeTokenBalStep_events now b a e he with h | h
    · exact h10 e h
    · exact Or.inr h

theorem mergeTokenBal_fold_stamp_keep (now : Int) (tk : String)
    (l : List (String × String)) (acc : EngineState × List Event)
    (h : getVal acc.1.ethNeeds.tokenBalLastChecked tk = some now) :
    getVal (l.foldl (mergeTokenBalStep now) acc).1.ethNeeds.tokenBalLastChecked tk =
      some now := by
  refine foldl_invariant (mergeTokenBalStep now)
    (fun r => getVal r.1.ethNeeds.tokenBalLastChecked tk = some now) ?_ l acc h
  intro b a hb
  simp only [mergeTokenBalStep_fst_ethNeeds]
  by_cases hk : a.1 = tk
  · rw [hk, getVal_setVal_self]
  · rw [getVal_setVal_ne _ _ _ _ hk]
    exact hb

theorem mergeTokenBal_fold_stamp (now : Int) (l : List (String × String)) :
    ∀ (acc : EngineState × List Event) (tk v : String), (tk, v) ∈ l →
      getVal (l.foldl (mergeTokenBalStep now) acc).1.ethNeeds.tokenBalLastChecked
        tk = some now := by
  induction l with
  | nil => intro acc tk v h; cases h
  | cons hd tl ih =>
    intro acc tk v hmem
    rw [List.foldl_cons]
    rcases List.mem_cons.mp hmem with heq | htl
    · apply mergeTokenBal_fold_stamp_keep
      simp only [mergeTokenBalStep_fst_ethNeeds]
      have hk : hd.1 = tk := by rw [← heq]
      rw [hk, getVal_setVal_self]
    · exact ih _ tk v htl

theorem addTransaction_fold_frame (txs : List EdgeTx) (st : EngineState) :
    (txs.foldl addTransaction st).walletLocalData = st.walletLocalData ∧
    (txs.foldl addTransaction st).walletLocalDataDirty =
      st.walletLocalDataDirty ∧
    (txs.foldl addTransaction st).ethNeeds = st.ethNeeds ∧
    (txs.foldl addTransaction st).tokenCheckBalanceStatus =
      st.tokenCheckBalanceStatus ∧
    (txs.foldl addTransaction st).tokenCheckTransactionsStatus =
      st.tokenCheckTransactionsStatus := by
  refine foldl_invariant addTransaction
    (fun s =>
      s.walletLocalData = st.walletLocalData ∧
      s.walletLocalDataDirty = st.walletLocalDataDirty ∧
      s.ethNeeds = st.ethNeeds ∧
      s.tokenCheckBalanceStatus = st.tokenCheckBalanceStatus ∧
      s.tokenCheckTransactionsStatus = st.tokenCheckTransactionsStatus)
    ?_ txs st ⟨rfl, rfl, rfl, rfl, rfl⟩
  intro b a hb
  exact hb

theorem mergeTokenTxsStep_fst_ethNeeds (now pre : Int)
    (acc : EngineState × List Event)
    (kv : String × EdgeTransactionsBlockHeightTuple) :
    (mergeTokenTxsStep now pre acc kv).1.ethNeeds =
      { acc.1.ethNeeds with
        tokenTxsLastChecked :=
          setVal acc.1.ethNeeds.tokenTxsLastChecked kv.1 now } := by
  simp only [mergeTokenTxsStep]
  rw [(addTransaction_fold_frame _ _).2.2.1]

theorem mergeTokenTxsStep_fst_walletLocalData (now pre : Int)
    (acc : EngineState × List Event)
    (kv : String × EdgeTransactionsBlockHeightTuple) :
    (mergeTokenTxsStep now pre acc kv).1.walletLocalData =
      { acc.1.walletLocalData with
        lastTransactionQueryHeight :=
          setVal acc.1.walletLocalData.lastTransactionQueryHeight kv.1 pre } := by
  simp only [mergeTokenTxsStep]
  rw [(addTransaction_fold_frame _ _).1]

theorem mergeTokenTxsStep_fst_dirty (now pre : Int)
    (acc : EngineState × List Event)
    (kv : String × EdgeTransactionsBlockHeightTuple) :
    (mergeTokenTxsStep now pre acc kv).1.walletLocalDataDirty =
      acc.1.walletLocalDataDirty := by
  simp only [mergeTokenTxsStep]
  rw [(addTransaction_fold_frame _ _).2.1]

theorem mergeTokenTxsStep_fst_balStatus (now pre : Int)
    (acc : EngineState × List Event)
    (kv : String × EdgeTransactionsBlockHeightTuple) :
    (mergeTokenTxsStep now pre acc kv).1.tokenCheckBalanceStatus =
      acc.1.tokenCheckBalanceStatus := by
  simp only [mergeTokenTxsStep]
  rw [(addTransaction_fold_frame _ _).2.2.2.1]

theorem mergeTokenTxsStep_snd (now pre : Int) (acc : EngineState × List Event)
    (kv : String × EdgeTransactionsBlockHeightTuple) :
    (mergeTokenTxsStep now pre acc kv).2 = acc.2 := rfl

theorem mergeTokenTxs_fold_frame (now pre : Int)
    (l : List (String × EdgeTransactionsBlockHeightTuple))
    (acc : EngineState × List Event) :
    (l.foldl (mergeTokenTxsStep now pre) acc).1.walletLocalData.blockHeight =
      acc.1.walletLocalData.blockHeight ∧
    (l.foldl (mergeTokenTxsStep now pre) acc).1.walletLocalData.otherData =
      acc.1.walletLocalData.otherData ∧
    (l.foldl (mergeTokenTxsStep now pre) acc).1.walletLocalData.totalBalances =
      acc.1.walletLocalData.totalBalances ∧
    (l.foldl (mergeTokenTxsStep now pre) acc).1.walletLocalDataDirty =
      acc.1.walletLocalDataDirty ∧
    (l.foldl (mergeTokenTxsStep now pre) acc).1.ethNeeds.blockHeightLastChecked =
      acc.1.ethNeeds.blockHeightLastChecked ∧
    (l.foldl (mergeTokenTxsStep now pre) acc).1.ethNeeds.nonceLastChecked =
      acc.1.ethNeeds.nonceLastChecked ∧
    (l.foldl (mergeTokenTxsStep now pre) acc).1.ethNeeds.tokenBalLastChecked =
      acc.1.ethNeeds.tokenBalLastChecked ∧
    (l.foldl (mergeTokenTxsStep now pre) acc).1.tokenCheckBalanceStatus =
      acc.1.tokenCheckBalanceStatus ∧
    (l.foldl (mergeTokenTxsStep now pre) acc).2 = acc.2 := by
  refine foldl_invariant (mergeTokenTxsStep now pre)
    (fun r =>
      r.1.walletLocalData.blockHeight = acc.1.walletLocalData.blockHeight ∧
      r.1.walletLocalData.otherData = acc.1.walletLocalData.otherData ∧
      r.1.walletLocalData.totalBalances = acc.1.walletLocalData.totalBalances ∧
      r.1.walletLocalDataDirty = acc.1.walletLocalDataDirty ∧
      r.1.ethNeeds.blockHeightLastChecked =
        acc.1.ethNeeds.blockHeightLastChecked ∧
      r.1.ethNeeds.nonceLastChecked = acc.1.ethNeeds.nonceLastChecked ∧
      r.1.ethNeeds.tokenBalLastChecked = acc.1.ethNeeds.tokenBalLastChecked ∧
      r.1.tokenCheckBalanceStatus = acc.1.tokenCheckBalanceStatus ∧
      r.2 = acc.2)
    ?_ l acc ⟨rfl, rfl, rfl, rfl, rfl, rfl, rfl, rfl, rfl⟩
  intro b a hb
  obtain ⟨h1, h2, h3, h4, h5, h6, h7, h8, h9⟩ := hb
  refine ⟨?_, ?_, ?_, ?_, ?_, ?_, ?_, ?_, ?_⟩
  · simp only [mergeTokenTxsStep_fst_walletLocalData]; exact h1
  · simp only [mergeTokenTxsStep_fst_walletLocalData]; exact h2
  · simp only [mergeTokenTxsStep_fst_walletLocalData]; exact h3
  · simp only [mergeTokenTxsStep_fst_dirty]; exact h4
  · simp only [mergeTokenTxsStep_fst_ethNeeds]; exact h5
  · simp only [mergeTokenTxsStep_fst_ethNeeds]; exact h6
  · simp only [mergeTokenTxsStep_fst_ethNeeds]; exact h7
  · simp only [mergeTokenTxsStep_fst_balStatus]; exact h8
  · simp only [mergeTokenTxsStep_snd]; exact h9

theorem mergeTokenTxs_fold_stamp_keep (now pre : Int) (tk : String)
    (l : List (String × EdgeTransactionsBlockHeightTuple))
    (acc : EngineState × List Event)
    (h : getVal acc.1.ethNeeds.tokenTxsLastChecked tk = some now) :
    getVal (l.foldl (mergeTokenTxsStep now pre) acc).1.ethNeeds.tokenTxsLastChecked
      tk = some now := by
  refine foldl_invariant (mergeTokenTxsStep now pre)
    (fun r => getVal r.1.ethNeeds.tokenTxsLastChecked tk = some now) ?_ l acc h
  intro b a hb
  simp only [mergeTokenTxsStep_fst_ethNeeds]
  by_cases hk : a.1 = tk
  · rw [hk, getVal_setVal_self]
  · rw [getVal_setVal_ne _ _ _ _ hk]
    exact hb

theorem mergeTokenTxs_fold_stamp (now pre : Int)
    (l : List (String × EdgeTransactionsBlockHeightTuple)) :
    ∀ (acc : EngineState × List Event) (tk : String)
      (tup : EdgeTransactionsBlockHeightTuple), (tk, tup) ∈ l →
      getVal (l.foldl (mergeTokenTxsStep now pre) acc).1.ethNeeds.tokenTxsLastChecked
        tk = some now := by
  induction l with
  | nil => intro acc tk tup h; cases h
  | cons hd tl ih =>
    intro acc tk tup hmem
    rw [List.foldl_cons]
    rcases List.mem_cons.mp hmem with heq | htl
    · apply mergeTokenTxs_fold_stamp_keep
      simp only [mergeTokenTxsStep_fst_ethNeeds]
      have hk : hd.1 = tk := by rw [← heq]
      rw [hk, getVal_setVal_self]
    · exact ih _ tk tup htl

theorem mergeTokenBal_frame (now : Int) (u : EthereumNetworkUpdate) (st : EngineState) :
    (mergeTokenBal now u st).1.walletLocalData.blockHeight =
      st.walletLocalData.blockHeight ∧
    (mergeTokenBal now u st).1.walletLocalData.otherData =
      st.walletLocalData.otherData ∧
    (mergeTokenBal now u st).1.walletLocalData.lastTransactionQueryHeight =
      st.walletLocalData.lastTransactionQueryHeight ∧
    (mergeTokenBal now u st).1.walletLocalDataDirty = st.walletLocalDataDirty ∧
    (mergeTokenBal now u st).1.ethNeeds.blockHeightLastChecked =
      st.ethNeeds.blockHeightLastChecked ∧
    (mergeTokenBal now u st).1.ethNeeds.nonceLastChecked =
      st.ethNeeds.nonceLastChecked ∧
    (mergeTokenBal now u st).1.ethNeeds.tokenTxsLastChecked =
      st.ethNeeds.tokenTxsLastChecked ∧
    (mergeTokenBal now u st).1.transactionList = st.transactionList ∧
    (mergeTokenBal now u st).1.transactionsChangedArray =
      st.transactionsChangedArray ∧
    ∀ e ∈ (mergeTokenBal now u st).2,
      e = Event.addressesChecked ∨ ∃ c v, e = Event.onBalanceChanged c v := by
  unfold mergeTokenBal
  split
  · obtain ⟨h1, h2, h3, h4, h5, h6, h7, h8, h9, h10⟩ :=
      mergeTokenBal_fold_frame now _ (st, [])
    refine ⟨h1, h2, h3, h4, h5, h6, h7, h8, h9, ?_⟩
    intro e he
    rcases h10 e he with h | h
    · cases h
    · exact h
  · exact ⟨rfl, rfl, rfl, rfl, rfl, rfl, rfl, rfl, rfl, fun e he => absurd he (by simp)⟩

theorem mergeTokenTxs_frame (now pre : Int) (u : EthereumNetworkUpdate)
    (st : EngineState) :
    (mergeTokenTxs now pre u st).1.walletLocalData.blockHeight =
      st.walletLocalData.blockHeight ∧
    (mergeTokenTxs now pre u st).1.walletLocalData.otherData =
      st.walletLocalData.otherData ∧
    (mergeTokenTxs now pre u st).1.walletLocalData.totalBalances =
      st.walletLocalData.totalBalances ∧
    (mergeTokenTxs now pre u st).1.walletLocalDataDirty =
      st.walletLocalDataDirty ∧
    (mergeTokenTxs now pre u st).1.ethNeeds.blockHeightLastChecked =
      st.ethNeeds.blockHeightLastChecked ∧
    (mergeTokenTxs now pre u st).1.ethNeeds.nonceLastChecked =
      st.ethNeeds.nonceLastChecked ∧
    (mergeTokenTxs now pre u st).1.ethNeeds.tokenBalLastChecked =
      st.ethNeeds.tokenBalLastChecked ∧
    (mergeTokenTxs now pre u st).1.tokenCheckBalanceStatus =
      st.tokenCheckBalanceStatus ∧
    ∀ e ∈ (mergeTokenTxs now pre u st).2, e = Event.addressesChecked := by
  unfold mergeTokenTxs
  split
  · obtain ⟨h1, h2, h3, h4, h5, h6, h7, h8, h9⟩ :=
      mergeTokenTxs_fold_frame now pre _ (st, [])
    refine ⟨h1, h2, h3, h4, h5, h6, h7, h8, ?_⟩
    intro e he
    simp only [List.mem_append] at he
    rcases he with he | he
    · rw [h9] at he
      cases he
    · simpa using he
  · exact ⟨rfl, rfl, rfl, rfl, rfl, rfl, rfl, rfl, fun e he => absurd he (by simp)⟩

/-- C9: a network update whose `blockHeight` is absent, `NaN` (as produced by
a non-numeric hex parse) or `0` leaves the stored block height unchanged,
runs no dropped-transaction rollback check and never fires
`onBlockHeightChanged` — so a reported height of `0` cannot overwrite a
positive stored height. -/
theorem C9_falsy_height_ignored (now preUpdateBlockHeight : Int)
    (st : EngineState) (u : EthereumNetworkUpdate)
    (h : u.blockHeight = none ∨ u.blockHeight = some JSNum.nan ∨
      u.blockHeight = some (JSNum.num 0)) :
    (processEthereumNetworkUpdate now u preUpdateBlockHeight
        st).1.walletLocalData.blockHeight = st.walletLocalData.blockHeight ∧
    Event.droppedTransactionsCheck ∉
      (processEthereumNetworkUpdate now u preUpdateBlockHeight st).2 ∧
    ∀ hh : Int, Event.onBlockHeightChanged hh ∉
      (processEthereumNetworkUpdate now u preUpdateBlockHeight st).2 := by
  have hr1 : mergeBlockHeight now u st = (st, []) := mergeBlockHeight_falsy now u st h
  have heq : processEthereumNetworkUpdate now u preUpdateBlockHeight st =
      ((flushTransactionsChanged
          (mergeTokenTxs now preUpdateBlockHeight u
            (mergeTokenBal now u (mergeNonce now u st)).1).1).1,
        (mergeBlockHeight now u st).2 ++
          (mergeTokenBal now u (mergeNonce now u st)).2 ++
          (mergeTokenTxs now preUpdateBlockHeight u
            (mergeTokenBal now u (mergeNonce now u st)).1).2 ++
          (flushTransactionsChanged
            (mergeTokenTxs now preUpdateBlockHeight u
              (mergeTokenBal now u (mergeNonce now u st)).1).1).2) := by
    unfold processEthereumNetworkUpdate
    rw [hr1]
  obtain ⟨hN1, hN2, hN3, hN4, hN5, hN6, hN7, hN8, hN9, hN10, hN11⟩ :=
    mergeNonce_frame now u st
  obtain ⟨hB1, hB2, hB3, hB4, hB5, hB6, hB7, hB8, hB9, hB10⟩ :=
    mergeTokenBal_frame now u (mergeNonce now u st)
  obtain ⟨hT1, hT2, hT3, hT4, hT5, hT6, hT7, hT8, hT9⟩ :=
    mergeTokenTxs_frame now preUpdateBlockHeight u
      (mergeTokenBal now u (mergeNonce now u st)).1
  obtain ⟨hF1, hF2, hF3, hF4⟩ :=
    flushTransactionsChanged_frame
      (mergeTokenTxs now preUpdateBlockHeight u
        (mergeTokenBal now u (mergeNonce now u st)).1).1
  rw [heq]
  refine ⟨?_, ?_, ?_⟩
  · show (flushTransactionsChanged _).1.walletLocalData.blockHeight = _
    rw [hF1, hT1, hB1, hN1]
  · intro hc
    rw [hr1] at hc
    simp only [List.mem_append] at hc
    rcases hc with ((hc | hc) | hc) | hc
    · cases hc
    · rcases hB10 _ hc with h' | ⟨c, v, h'⟩ <;> cases h'
    · cases hT9 _ hc
    · obtain ⟨t, h'⟩ := hF4 _ hc
      cases h'
  · intro hh hc
    rw [hr1] at hc
    simp only [List.mem_append] at hc
    rcases hc with ((hc | hc) | hc) | hc
    · cases hc
    · rcases hB10 _ hc with h' | ⟨c, v, h'⟩ <;> cases h'
    · cases hT9 _ hc
    · obtain ⟨t, h'⟩ := hF4 _ hc
      cases h'

/-- Witness for C9: a non-numeric hex parse yields `NaN`; merging it against
a stored height of `7` leaves the height at `7` and runs no rollback
check. -/
theorem C9_falsy_height_ignored_witness :
    (processEthereumNetworkUpdate 42 { blockHeight := some (parseInt16 "xyz") } 0
        (mkNonceHeightState "0" "0" 7)).1.walletLocalData.blockHeight = 7 ∧
    Event.droppedTransactionsCheck ∉
      (processEthereumNetworkUpdate 42 { blockHeight := some (parseInt16 "xyz") } 0
        (mkNonceHeightState "0" "0" 7)).2 := by
  have h := C9_falsy_height_ignored 42 0 (mkNonceHeightState "0" "0" 7)
    { blockHeight := some (parseInt16 "xyz") } (Or.inr (Or.inl (by decide)))
  exact ⟨h.1, h.2.1⟩

/-- C2 (amended): after a pass invokes a resource's fetch-and-merge, the
resource's `lastChecked` timestamp is set to the current time only when
the merged update actually carries that resource's fact — for the block
height, only when the truthy fetched height also differs from the stored
one; a failure recovered to an empty update stamps no timestamp at all, so
the resource is eligible for re-fetch on the very next scheduler pass. -/
theorem C2_amended_poll_stamping (now preUpdateBlockHeight : Int)
    (st : EngineState) (u : EthereumNetworkUpdate) :
    ((processEthereumNetworkUpdate now emptyUpdate preUpdateBlockHeight
        st).1.ethNeeds = st.ethNeeds) ∧
    (∀ s, u.nonce = some s → s ≠ "" →
      (processEthereumNetworkUpdate now u preUpdateBlockHeight
        st).1.ethNeeds.nonceLastChecked = now) ∧
    (∀ h : Int, u.blockHeight = some (JSNum.num h) → h ≠ 0 →
      st.walletLocalData.blockHeight ≠ h →
      (processEthereumNetworkUpdate now u preUpdateBlockHeight
        st).1.ethNeeds.blockHeightLastChecked = now) ∧
    (∀ l tk v, u.tokenBal = some l → (tk, v) ∈ l →
      getVal (processEthereumNetworkUpdate now u preUpdateBlockHeight
        st).1.ethNeeds.tokenBalLastChecked tk = some now) ∧
    (∀ l tk tup, u.tokenTxs = some l → (tk, tup) ∈ l →
      getVal (processEthereumNetworkUpdate now u preUpdateBlockHeight
        st).1.ethNeeds.tokenTxsLastChecked tk = some now) := by
  have e1 : (processEthereumNetworkUpdate now u preUpdateBlockHeight st).1 =
      (flushTransactionsChanged
        (mergeTokenTxs now preUpdateBlockHeight u
          (mergeTokenBal now u
            (mergeNonce now u (mergeBlockHeight now u st).1)).1).1).1 := rfl
  obtain ⟨hB1, hB2, hB3, hB4, hB5, hB6, hB7, hB8, hB9, hB10⟩ :=
    mergeTokenBal_frame now u (mergeNonce now u (mergeBlockHeight now u st).1)
  obtain ⟨hT1, hT2, hT3, hT4, hT5, hT6, hT7, hT8, hT9⟩ :=
    mergeTokenTxs_frame now preUpdateBlockHeight u
      (mergeTokenBal now u (mergeNonce now u (mergeBlockHeight now u st).1)).1
  obtain ⟨hF1, hF2, hF3, hF4⟩ :=
    flushTransactionsChanged_frame
      (mergeTokenTxs now preUpdateBlockHeight u
        (mergeTokenBal now u
          (mergeNonce now u (mergeBlockHeight now u st).1)).1).1
  refine ⟨?_, ?_, ?_, ?_, ?_⟩
  · have e0 : processEthereumNetworkUpdate now emptyUpdate preUpdateBlockHeight st =
        ((flushTransactionsChanged st).1,
          [] ++ [] ++ [] ++ (flushTransactionsChanged st).2) := rfl
    rw [e0]
    exact (flushTransactionsChanged_frame st).2.2.1
  · intro s hsome hne
    obtain ⟨hn1, hn2, hn3⟩ :=
      mergeNonce_set now u (mergeBlockHeight now u st).1 s hsome hne
    rw [e1, hF3, hT6, hB6]
    exact hn1
  · intro h hsome hne0 hnee
    have hset := mergeBlockHeight_set now st h hne0 hnee u hsome
    have hN5 := (mergeNonce_frame now u (mergeBlockHeight now u st).1).2.2.2.2.1
    rw [e1, hF3, hT5, hB5, hN5, hset]
  · intro l tk v hsome hmem
    have hunfold : mergeTokenBal now u
        (mergeNonce now u (mergeBlockHeight now u st).1) =
        l.foldl (mergeTokenBalStep now)
          ((mergeNonce now u (mergeBlockHeight now u st).1), []) := by
      unfold mergeTokenBal
      rw [hsome]
    rw [e1, hF3, hT7, hunfold]
    exact mergeTokenBal_fold_stamp now l _ tk v hmem
  · intro l tk tup hsome hmem
    have hunfoldT : (mergeTokenTxs now preUpdateBlockHeight u
        (mergeTokenBal now u
          (mergeNonce now u (mergeBlockHeight now u st).1)).1).1 =
        (l.foldl (mergeTokenTxsStep now preUpdateBlockHeight)
          ((mergeTokenBal now u
            (mergeNonce now u (mergeBlockHeight now u st).1)).1, [])).1 := by
      unfold mergeTokenTxs
      rw [hsome]
    rw [e1, hF3, hunfoldT]
    exact mergeTokenTxs_fold_stamp now preUpdateBlockHeight l _ tk tup hmem

/-- An update carrying every kind of fact, used to instantiate the stamping
theorem. -/
def richUpdate : EthereumNetworkUpdate :=
  { blockHeight := some (JSNum.num 100)
    nonce := some "3"
    tokenBal := some [("ETH", "1")]
    tokenTxs := some [("ETH", { blockHeight := 0, edgeTransactions := [] })] }

/-- Witness for the amended C2 at concrete inputs. -/
theorem C2_amended_poll_stamping_witness :
    ((processEthereumNetworkUpdate 42 emptyUpdate 5
        (mkNonceHeightState "0" "0" 5)).1.ethNeeds =
      (mkNonceHeightState "0" "0" 5).ethNeeds) ∧
    (processEthereumNetworkUpdate 42 richUpdate 5
        (mkNonceHeightState "0" "0" 5)).1.ethNeeds.nonceLastChecked = 42 ∧
    (processEthereumNetworkUpdate 42 richUpdate 5
        (mkNonceHeightState "0" "0" 5)).1.ethNeeds.blockHeightLastChecked = 42 ∧
    getVal (processEthereumNetworkUpdate 42 richUpdate 5
        (mkNonceHeightState "0" "0" 5)).1.ethNeeds.tokenBalLastChecked "ETH" =
      some 42 ∧
    getVal (processEthereumNetworkUpdate 42 richUpdate 5
        (mkNonceHeightState "0" "0" 5)).1.ethNeeds.tokenTxsLastChecked "ETH" =
      some 42 := by
  have h := C2_amended_poll_stamping 42 5 (mkNonceHeightState "0" "0" 5) richUpdate
  exact ⟨h.1, h.2.1 "3" rfl (by decide), h.2.2.1 100 rfl (by decide) (by decide),
    h.2.2.2.1 [("ETH", "1")] "ETH" "1" rfl (by simp),
    h.2.2.2.2 [("ETH", { blockHeight := 0, edgeTransactions := [] })] "ETH"
      { blockHeight := 0, edgeTransactions := [] } rfl (by simp)⟩

/-- C4 (amended): merging a fresh confirmed nonce overwrites the stored
confirmed nonce (`nextNonce`) and leaves `nextUnconfirmedNonce` entirely
unchanged — there is no `max` reconciliation, so the invariant
`nextUnconfirmedNonce >= confirmedNonce` need not hold after a merge; it is
re-established only at allocation time, when `signTx` falls back to the
confirmed nonce whenever `nextUnconfirmedNonce` is not strictly greater. -/
theorem C4_amended_nonce_merge (now preUpdateBlockHeight : Int)
    (st : EngineState) (u : EthereumNetworkUpdate) (s : String)
    (hsome : u.nonce = some s) (hne : s ≠ "") :
    (processEthereumNetworkUpdate now u preUpdateBlockHeight
        st).1.walletLocalData.otherData.nextNonce = s ∧
    (processEthereumNetworkUpdate now u preUpdateBlockHeight
        st).1.walletLocalData.otherData.unconfirmedNextNonce =
      st.walletLocalData.otherData.unconfirmedNextNonce := by
  have e1 : (processEthereumNetworkUpdate now u preUpdateBlockHeight st).1 =
      (flushTransactionsChanged
        (mergeTokenTxs now preUpdateBlockHeight u
          (mergeTokenBal now u
            (mergeNonce now u (mergeBlockHeight now u st).1)).1).1).1 := rfl
  obtain ⟨hn1, hn2, hn3⟩ :=
    mergeNonce_set now u (mergeBlockHeight now u st).1 s hsome hne
  have hnun := (mergeNonce_frame now u (mergeBlockHeight now u st).1).2.1
  have hbhOD := (mergeBlockHeight_frame now u st).1
  obtain ⟨hB1, hB2, hB3, hB4, hB5, hB6, hB7, hB8, hB9, hB10⟩ :=
    mergeTokenBal_frame now u (mergeNonce now u (mergeBlockHeight now u st).1)
  obtain ⟨hT1, hT2, hT3, hT4, hT5, hT6, hT7, hT8, hT9⟩ :=
    mergeTokenTxs_frame now preUpdateBlockHeight u
      (mergeTokenBal now u (mergeNonce now u (mergeBlockHeight now u st).1)).1
  obtain ⟨hF1, hF2, hF3, hF4⟩ :=
    flushTransactionsChanged_frame
      (mergeTokenTxs now preUpdateBlockHeight u
        (mergeTokenBal now u
          (mergeNonce now u (mergeBlockHeight now u st).1)).1).1
  constructor
  · rw [e1, hF1, hT2, hB2]
    exact hn2
  · rw [e1, hF1, hT2, hB2, hnun, hbhOD]

/-- Witness for the amended C4: merging confirmed nonce `"10"` into the state
with both nonces at `"5"` stores `"10"` and leaves the unconfirmed nonce at
`"5"`. -/
theorem C4_amended_nonce_merge_witness :
    (processEthereumNetworkUpdate 1000 (nonceUpdate "10") 0
        (mkNonceState "5" "5")).1.walletLocalData.otherData.nextNonce = "10" ∧
    (processEthereumNetworkUpdate 1000 (nonceUpdate "10") 0
        (mkNonceState "5" "5")).1.walletLocalData.otherData.unconfirmedNextNonce =
      "5" := by
  have h := C4_amended_nonce_merge 1000 0 (mkNonceState "5" "5")
    (nonceUpdate "10") "10" rfl (by decide)
  exact ⟨h.1, h.2⟩

/-- C5 (amended): for every merge of a fetched block height that is truthy
(non-zero, non-`NaN`): if it equals the stored height the state is
unchanged and nothing fires; if it differs, the dropped-transaction
rollback check runs first, then the height is stored, then
`onBlockHeightChanged` fires exactly once with the new height. -/
theorem C5_amended_height_merge (now preUpdateBlockHeight h : Int)
    (st : EngineState) (h0 : h ≠ 0)
    (hclean : st.transactionsChangedArray = []) :
    (st.walletLocalData.blockHeight = h →
      processEthereumNetworkUpdate now (blockHeightUpdate h)
        preUpdateBlockHeight st = (st, [])) ∧
    (st.walletLocalData.blockHeight ≠ h →
      (processEthereumNetworkUpdate now (blockHeightUpdate h)
          preUpdateBlockHeight st).1.walletLocalData.blockHeight = h ∧
      (processEthereumNetworkUpdate now (blockHeightUpdate h)
          preUpdateBlockHeight st).2 =
        [Event.droppedTransactionsCheck, Event.onBlockHeightChanged h]) := by
  constructor
  · intro heq
    have hbh : mergeBlockHeight now (blockHeightUpdate h) st = (st, []) := by
      unfold mergeBlockHeight blockHeightUpdate
      simp [heq]
    have e0 : processEthereumNetworkUpdate now (blockHeightUpdate h)
        preUpdateBlockHeight st =
        ((flushTransactionsChanged (mergeBlockHeight now (blockHeightUpdate h)
            st).1).1,
          (mergeBlockHeight now (blockHeightUpdate h) st).2 ++ [] ++ [] ++
            (flushTransactionsChanged (mergeBlockHeight now (blockHeightUpdate h)
              st).1).2) := rfl
    have hfl : flushTransactionsChanged st = (st, []) := by
      unfold flushTransactionsChanged
      simp [hclean]
    rw [e0, hbh]
    simp [hfl]
  · intro hne
    have hbh := mergeBlockHeight_set now st h h0 hne (blockHeightUpdate h) rfl
    have e0 : processEthereumNetworkUpdate now (blockHeightUpdate h)
        preUpdateBlockHeight st =
        ((flushTransactionsChanged (mergeBlockHeight now (blockHeightUpdate h)
            st).1).1,
          (mergeBlockHeight now (blockHeightUpdate h) st).2 ++ [] ++ [] ++
            (flushTransactionsChanged (mergeBlockHeight now (blockHeightUpdate h)
              st).1).2) := rfl
    have hfl : flushTransactionsChanged
        ({ st with
            ethNeeds := { st.ethNeeds with blockHeightLastChecked := now }
            walletLocalData := { st.walletLocalData with blockHeight := h }
            walletLocalDataDirty := true } : EngineState) =
        ({ st with
            ethNeeds := { st.ethNeeds with blockHeightLastChecked := now }
            walletLocalData := { st.walletLocalData with blockHeight := h }
            walletLocalDataDirty := true }, []) := by
      unfold flushTransactionsChanged
      simp [hclean]
    rw [e0, hbh]
    simp [hfl]

/-- Witness for the amended C5: one successful fetch of height `100` against
stored height `5` applies `100` exactly once, after the rollback check, and
fires `onBlockHeightChanged` exactly once; a fetch of the already-stored
`5` changes nothing. -/
theorem C5_amended_height_merge_witness :
    (processEthereumNetworkUpdate 42 (blockHeightUpdate 100) 0
        (mkNonceHeightState "0" "0" 5)).1.walletLocalData.blockHeight = 100 ∧
    (processEthereumNetworkUpdate 42 (blockHeightUpdate 100) 0
        (mkNonceHeightState "0" "0" 5)).2 =
      [Event.droppedTransactionsCheck, Event.onBlockHeightChanged 100] ∧
    processEthereumNetworkUpdate 42 (blockHeightUpdate 5) 0
        (mkNonceHeightState "0" "0" 5) = (mkNonceHeightState "0" "0" 5, []) := by
  have h1 := C5_amended_height_merge 42 0 100 (mkNonceHeightState "0" "0" 5)
    (by decide) rfl
  have h2 := C5_amended_height_merge 42 0 5 (mkNonceHeightState "0" "0" 5)
    (by decide) rfl
  obtain ⟨ha, hb⟩ := h1.2 (by decide)
  exact ⟨ha, hb, h2.1 rfl⟩

/-- Embedding of the merge step of `EthereumEngine.checkAccountNonceFetch`
(ethEngine.js lines 234-249, the legacy engine): the fetched string is
normalized with `bns.add('0', result)`; the stored nonce and the dirty
flag are touched only when the response validated and the normalized nonce
differs (string comparison `!==`) from the stored string. -/
def checkAccountNonceFetchMerge (st : EngineState) (valid : Bool)
    (result : String) : EngineState :=
  let nonce := bns_add "0" result
  if valid = true ∧ st.walletLocalData.otherData.nextNonce ≠ nonce then
    { st with
        walletLocalData := { st.walletLocalData with
          otherData := { st.walletLocalData.otherData with nextNonce := nonce } }
        walletLocalDataDirty := true }
  else st

/-- C8 (amended): the two nonce-merge paths behave differently.  The
`processEthereumNetworkUpdate` merge overwrites the stored nonce, stamps
the timestamp and sets the dirty flag whenever the update carries a
(truthy) nonce, with no comparison against the stored value — even when
they are equal.  Only the legacy `checkAccountNonceFetch` path applies the
only-if-changed rule: an equal normalized nonce leaves the state entirely
unchanged, and a differing one (with a valid response) updates the stored
nonce and sets the dirty flag. -/
theorem C8_amended_nonce_merge_paths (now preUpdateBlockHeight : Int)
    (st : EngineState) (u : EthereumNetworkUpdate) :
    (∀ s, u.nonce = some s → s ≠ "" →
      (processEthereumNetworkUpdate now u preUpdateBlockHeight
          st).1.walletLocalData.otherData.nextNonce = s ∧
      (processEthereumNetworkUpdate now u preUpdateBlockHeight
          st).1.walletLocalDataDirty = true ∧
      (processEthereumNetworkUpdate now u preUpdateBlockHeight
          st).1.ethNeeds.nonceLastChecked = now) ∧
    (∀ (valid : Bool) (result : String),
      bns_add "0" result = st.walletLocalData.otherData.nextNonce →
      checkAccountNonceFetchMerge st valid result = st) ∧
    (∀ result : String,
      bns_add "0" result ≠ st.walletLocalData.otherData.nextNonce →
      checkAccountNonceFetchMerge st true result =
        { st with
            walletLocalData := { st.walletLocalData with
              otherData := { st.walletLocalData.otherData with
                nextNonce := bns_add "0" result } }
            walletLocalDataDirty := true }) := by
  have e1 : (processEthereumNetworkUpdate now u preUpdateBlockHeight st).1 =
      (flushTransactionsChanged
        (mergeTokenTxs now preUpdateBlockHeight u
          (mergeTokenBal now u
            (mergeNonce now u (mergeBlockHeight now u st).1)).1).1).1 := rfl
  obtain ⟨hB1, hB2, hB3, hB4, hB5, hB6, hB7, hB8, hB9, hB10⟩ :=
    mergeTokenBal_frame now u (mergeNonce now u (mergeBlockHeight now u st).1)
  obtain ⟨hT1, hT2, hT3, hT4, hT5, hT6, hT7, hT8, hT9⟩ :=
    mergeTokenTxs_frame now preUpdateBlockHeight u
      (mergeTokenBal now u (mergeNonce now u (mergeBlockHeight now u st).1)).1
  obtain ⟨hF1, hF2, hF3, hF4⟩ :=
    flushTransactionsChanged_frame
      (mergeTokenTxs now preUpdateBlockHeight u
        (mergeTokenBal now u
          (mergeNonce now u (mergeBlockHeight now u st).1)).1).1
  refine ⟨?_, ?_, ?_⟩
  · intro s hsome hne
    obtain ⟨hn1, hn2, hn3⟩ :=
      mergeNonce_set now u (mergeBlockHeight now u st).1 s hsome hne
    refine ⟨?_, ?_, ?_⟩
    · rw [e1, hF1, hT2, hB2]
      exact hn2
    · rw [e1, hF2, hT4, hB4]
      exact hn3
    · rw [e1, hF3, hT6, hB6]
      exact hn1
  · intro valid result heq
    unfold checkAccountNonceFetchMerge
    simp [heq]
  · intro result hne
    unfold checkAccountNonceFetchMerge
    rw [if_pos ⟨rfl, Ne.symm hne⟩]

/-- Witness for the amended C8: merging a fetched nonce `"5"` equal to the
stored `"5"` still dirties the state on the merge path, while the legacy
path leaves the state untouched on the same input. -/
theorem C8_amended_nonce_merge_paths_witness :
    (processEthereumNetworkUpdate 1000 (nonceUpdate "5") 0
        (mkNonceState "5" "5")).1.walletLocalDataDirty = true ∧
    checkAccountNonceFetchMerge (mkNonceState "5" "5") true "5" =
      mkNonceState "5" "5" := by
  have h := C8_amended_nonce_merge_paths 1000 0 (mkNonceState "5" "5")
    (nonceUpdate "5")
  exact ⟨(h.1 "5" rfl (by decide)).2.1, h.2.1 true "5" (by decide)⟩

/-- Embedding of the nonce-allocation logic inside `EthereumEngine.signTx`
(ethEngine.js lines 967-1002): when unconfirmed spend transactions exist
and the unconfirmed next nonce is strictly greater than the confirmed one
(`nextNonce`), allocate the unconfirmed nonce provided the distance is at
most 5, incrementing the unconfirmed next nonce; beyond 5 fail with
`ErrorExcessivePendingSpends` without touching the state; otherwise
allocate the confirmed nonce and set the unconfirmed next nonce to its
successor.  The allocated nonce is returned as its decimal string (the
source hex-encodes it with `toHex` for the transaction parameters). -/
def allocateNonce (numUnconfirmedSpendTxs : Nat) (od : OtherData) :
    Except String String × OtherData :=
  if numUnconfirmedSpendTxs ≠ 0 ∧
      bns_gt od.unconfirmedNextNonce od.nextNonce = true then
    if bns_lte (bns_sub od.unconfirmedNextNonce od.nextNonce) "5" = true then
      (.ok od.unconfirmedNextNonce,
        { od with unconfirmedNextNonce := bns_add od.unconfirmedNextNonce "1" })
    else (.error "ErrorExcessivePendingSpends", od)
  else
    (.ok od.nextNonce,
      { od with unconfirmedNextNonce := bns_add od.nextNonce "1" })

/-- C3: from confirmed nonce 5, unconfirmed next nonce 5 and no pending
spends, the first allocation returns 5 and moves the unconfirmed next
nonce to 6; with pending spends tracked, five further consecutive
allocations return 6, 7, 8, 9, 10; the next consecutive allocation (where
the distance would reach 6) fails with `ErrorExcessivePendingSpends` and
leaves the nonce state unchanged. -/
theorem C3_nonce_allocation_scenario :
    allocateNonce 0 { nextNonce := "5", unconfirmedNextNonce := "5" } =
      (.ok "5", { nextNonce := "5", unconfirmedNextNonce := "6" }) ∧
    allocateNonce 1 { nextNonce := "5", unconfirmedNextNonce := "6" } =
      (.ok "6", { nextNonce := "5", unconfirmedNextNonce := "7" }) ∧
    allocateNonce 2 { nextNonce := "5", unconfirmedNextNonce := "7" } =
      (.ok "7", { nextNonce := "5", unconfirmedNextNonce := "8" }) ∧
    allocateNonce 3 { nextNonce := "5", unconfirmedNextNonce := "8" } =
      (.ok "8", { nextNonce := "5", unconfirmedNextNonce := "9" }) ∧
    allocateNonce 4 { nextNonce := "5", unconfirmedNextNonce := "9" } =
      (.ok "9", { nextNonce := "5", unconfirmedNextNonce := "10" }) ∧
    allocateNonce 5 { nextNonce := "5", unconfirmedNextNonce := "10" } =
      (.ok "10", { nextNonce := "5", unconfirmedNextNonce := "11" }) ∧
    allocateNonce 6 { nextNonce := "5", unconfirmedNextNonce := "11" } =
      (.error "ErrorExcessivePendingSpends",
        { nextNonce := "5", unconfirmedNextNonce := "11" }) := by
  refine ⟨rfl, rfl, rfl, rfl, rfl, rfl, rfl⟩

/-- Constant `NUM_TRANSACTIONS_TO_QUERY` (ethEngine.js lines 61 and 1210). -/
def NUM_TRANSACTIONS_TO_QUERY : Nat := 50

/-- Embedding of the pagination loop of `EthereumNetwork.checkTxsEthscan`
(ethEngine.js lines 1891-1924), abstracted over per-record processing:
`pages` gives the validated record list a provider returns for each page
number, `none` standing for a response that fails validation (the source
throws there).  Starting at the given page, the loop processes every
record of the page, stops as soon as a page returns fewer than
`NUM_TRANSACTIONS_TO_QUERY` records, and otherwise continues with the next
page number.  `fuel` bounds the source's unbounded `while (1)`.  The
result carries the processed records in order together with the list of
requested page numbers. -/
def checkTxsEthscanLoop {α : Type} (pages : Nat → Option (List α)) :
    Nat → Nat → Except String (List α × List Nat)
  | 0, _ => .error "fuel exhausted"
  | fuel + 1, page =>
    match pages page with
    | none => .error "checkTxsEthscan invalid JSON data"
    | some transactions =>
      if transactions.length < NUM_TRANSACTIONS_TO_QUERY then
        .ok (transactions, [page])
      else
        match checkTxsEthscanLoop pages fuel (page + 1) with
        | .ok (rest, reqs) => .ok (transactions ++ rest, page :: reqs)
        | .error e => .error e

/-- C6: on the fixed-page path, pages of size 50 are requested with
increasing page numbers and the loop stops exactly at the first page
returning fewer than 50 records: when page 1 returns 50 records and page 2
returns 0, exactly the 50 records of page 1 are processed, the requested
pages are 1 and 2, and page 3 is never requested. -/
theorem C6_fixed_page_pagination {α : Type} (pages : Nat → Option (List α))
    (l1 : List α) (fuel : Nat) (h1 : pages 1 = some l1)
    (hlen : l1.length = 50) (h2 : pages 2 = some []) :
    checkTxsEthscanLoop pages (fuel + 2) 1 = .ok (l1, [1, 2]) ∧
    ∀ recs reqs, checkTxsEthscanLoop pages (fuel + 2) 1 = .ok (recs, reqs) →
      recs.length = 50 ∧ 3 ∉ reqs := by
  have hinner : checkTxsEthscanLoop pages (fuel + 1) 2 = .ok ([], [2]) := by
    show (match pages 2 with
      | none => (.error "checkTxsEthscan invalid JSON data" :
          Except String (List α × List Nat))
      | some transactions =>
        if transactions.length < NUM_TRANSACTIONS_TO_QUERY then
          .ok (transactions, [2])
        else
          match checkTxsEthscanLoop pages fuel 3 with
          | .ok (rest, reqs) => .ok (transactions ++ rest, 2 :: reqs)
          | .error e => .error e) = .ok ([], [2])
    rw [h2]
    simp [NUM_TRANSACTIONS_TO_QUERY]
  have hmain : checkTxsEthscanLoop pages (fuel + 2) 1 = .ok (l1, [1, 2]) := by
    show (match pages 1 with
      | none => (.error "checkTxsEthscan invalid JSON data" :
          Except String (List α × List Nat))
      | some transactions =>
        if transactions.length < NUM_TRANSACTIONS_TO_QUERY then
          .ok (transactions, [1])
        else
          match checkTxsEthscanLoop pages (fuel + 1) 2 with
          | .ok (rest, reqs) => .ok (transactions ++ rest, 1 :: reqs)
          | .error e => .error e) = .ok (l1, [1, 2])
    rw [h1, hinner]
    simp [NUM_TRANSACTIONS_TO_QUERY, hlen]
  refine ⟨hmain, ?_⟩
  intro recs reqs h
  rw [hmain] at h
  injection h with h
  injection h with ha hb
  rw [← ha, ← hb]
  exact ⟨hlen, by decide⟩

/-- Witness for C6 at a concrete provider: page 1 holds 50 records, every
other page is empty. -/
theorem C6_fixed_page_pagination_witness :
    checkTxsEthscanLoop
        (fun p => if p = 1 then some (List.replicate 50 (0 : Nat)) else some [])
        2 1 = .ok (List.replicate 50 0, [1, 2]) := by
  exact (C6_fixed_page_pagination
    (fun p => if p = 1 then some (List.replicate 50 (0 : Nat)) else some [])
    (List.replicate 50 0) 0 rfl (by simp) rfl).1

/-- Constant `PRIMARY_CURRENCY = currencyInfo.currencyCode` (from
`ethInfo.js`, outside the given source); the source compares currency
codes against the native asset's literal `'ETH'` elsewhere (e.g.
ethEngine.js lines 1788 and 1943). -/
def PRIMARY_CURRENCY : String := "ETH"

/-- Raw Etherscan transaction record; all numeric fields are decimal strings
as delivered by the provider, and `contractAddress` is the empty string
when the field is absent (falsy). -/
structure EtherscanTx where
  hash : String
  fromAddress : String
  toAddress : String
  value : String
  gasPrice : String
  gasUsed : String
  contractAddress : String
  blockNumber : String
  timeStamp : String
deriving DecidableEq

/-- Embedding of `processEtherscanTransaction` (ethEngine.js lines
1282-1342): a token record (truthy `contractAddress`) carries network fee
`0`, a native record carries `gasPrice * gasUsed`; a record sent from the
wallet address (case-insensitive compare) is a spend — to itself, the
amount is minus the fee only; to someone else, minus the value with the
fee further subtracted; any other record is a receive with amount plus the
value. -/
def processEtherscanTransaction (walletAddress : String) (tx : EtherscanTx)
    (currencyCode : String) : EdgeTx :=
  let nativeNetworkFee : Int :=
    if tx.contractAddress ≠ "" then 0 else bns_mulI tx.gasPrice tx.gasUsed
  let spend := toLowerStr tx.fromAddress = toLowerStr walletAddress
  let netNativeAmount : Int :=
    if spend then
      if toLowerStr tx.fromAddress = toLowerStr tx.toAddress then
        nativeNetworkFee * (-1)
      else 0 - parseDecI tx.value - nativeNetworkFee
    else 0 + parseDecI tx.value
  let ourReceiveAddresses : List String :=
    if spend then [] else [toLowerStr walletAddress]
  let blockHeight :=
    match parseInt10 tx.blockNumber with
    | JSNum.num n => if n < 0 then JSNum.num 0 else JSNum.num n
    | JSNum.nan => JSNum.nan
  { txid := tx.hash
    currencyCode := currencyCode
    blockHeight := blockHeight
    date := parseInt10 tx.timeStamp
    nativeAmount := netNativeAmount
    networkFee := nativeNetworkFee
    parentNetworkFee := none
    ourReceiveAddresses := ourReceiveAddresses }

/-- Alethio token-transfer record: the from/to account ids of the transfer
relationship and the block component of `globalRank`. -/
structure AlethioTokenTransfer where
  fromAddress : String
  toAddress : String
  globalRankBlock : Int
deriving DecidableEq

/-- Alethio transaction attributes used by the processor. -/
structure AlethioTransaction where
  value : String
  fee : String
  txHash : String
  blockCreationTime : Int
deriving DecidableEq

/-- Embedding of `processAlethioTransaction` (ethEngine.js lines 1344-1424):
for the native asset the record's fee is the transaction fee and no parent
fee is recorded (the source stores the falsy empty string); for a token
the record's own fee is `0` and the native-asset fee is recorded as the
parent fee.  A record from the wallet address is a spend (self-send:
minus the fee only; otherwise minus value minus fee); a record to the
wallet address is a receive of plus the value; a record involving the
wallet address on neither side is dropped (`none`). -/
def processAlethioTransaction (walletAddress : String)
    (tokenTransfer : AlethioTokenTransfer) (tx : AlethioTransaction)
    (currencyCode : String) : Option EdgeTx :=
  let nativeNetworkFee : Int :=
    if currencyCode = PRIMARY_CURRENCY then parseDecI tx.fee else 0
  let parentNetworkFee : Option Int :=
    if currencyCode = PRIMARY_CURRENCY then none else some (parseDecI tx.fee)
  let blockHeight : JSNum :=
    JSNum.num
      (if tokenTransfer.globalRankBlock < 0 then 0
       else tokenTransfer.globalRankBlock)
  if toLowerStr tokenTransfer.fromAddress = toLowerStr walletAddress then
    some
      { txid := tx.txHash
        currencyCode := currencyCode
        blockHeight := blockHeight
        date := JSNum.num tx.blockCreationTime
        nativeAmount :=
          if toLowerStr tokenTransfer.fromAddress =
              toLowerStr tokenTransfer.toAddress then
            nativeNetworkFee * (-1)
          else 0 - parseDecI tx.value - nativeNetworkFee
        networkFee := nativeNetworkFee
        parentNetworkFee := parentNetworkFee
        ourReceiveAddresses := [] }
  else if toLowerStr tokenTransfer.toAddress = toLowerStr walletAddress then
    some
      { txid := tx.txHash
        currencyCode := currencyCode
        blockHeight := blockHeight
        date := JSNum.num tx.blockCreationTime
        nativeAmount := parseDecI tx.value
        networkFee := nativeNetworkFee
        parentNetworkFee := parentNetworkFee
        ourReceiveAddresses := [toLowerStr walletAddress] }
  else none

/-- C7: both processors classify the signed amount relative to the wallet
address — self-send: amount is minus the network fee only; outgoing:
amount is minus the value with the fee additionally subtracted (token
records carry a zero own fee, the Alethio path recording the native fee as
the parent fee); incoming: amount is plus the value; and the Alethio path
drops records involving the wallet on neither side. -/
theorem C7_transaction_classification (walletAddress : String)
    (tx : EtherscanTx) (currencyCode : String)
    (tt : AlethioTokenTransfer) (atx : AlethioTransaction) :
    (toLowerStr tx.fromAddress = toLowerStr walletAddress →
      toLowerStr tx.fromAddress = toLowerStr tx.toAddress →
      (processEtherscanTransaction walletAddress tx currencyCode).nativeAmount =
        -(processEtherscanTransaction walletAddress tx
          currencyCode).networkFee) ∧
    (toLowerStr tx.fromAddress = toLowerStr walletAddress →
      toLowerStr tx.fromAddress ≠ toLowerStr tx.toAddress →
      (processEtherscanTransaction walletAddress tx currencyCode).nativeAmount =
        -(parseDecI tx.value) -
          (processEtherscanTransaction walletAddress tx
            currencyCode).networkFee) ∧
    (tx.contractAddress ≠ "" →
      (processEtherscanTransaction walletAddress tx currencyCode).networkFee =
        0) ∧
    (toLowerStr tx.fromAddress ≠ toLowerStr walletAddress →
      (processEtherscanTransaction walletAddress tx currencyCode).nativeAmount =
        parseDecI tx.value) ∧
    (toLowerStr tt.fromAddress = toLowerStr walletAddress →
      toLowerStr tt.fromAddress = toLowerStr tt.toAddress →
      ∀ r, processAlethioTransaction walletAddress tt atx currencyCode =
          some r → r.nativeAmount = -r.networkFee) ∧
    (toLowerStr tt.fromAddress = toLowerStr walletAddress →
      toLowerStr tt.fromAddress ≠ toLowerStr tt.toAddress →
      ∀ r, processAlethioTransaction walletAddress tt atx currencyCode =
          some r →
        r.nativeAmount = -(parseDecI atx.value) - r.networkFee) ∧
    (currencyCode ≠ PRIMARY_CURRENCY →
      ∀ r, processAlethioTransaction walletAddress tt atx currencyCode =
          some r →
        r.networkFee = 0 ∧ r.parentNetworkFee = some (parseDecI atx.fee)) ∧
    (toLowerStr tt.fromAddress ≠ toLowerStr walletAddress →
      toLowerStr tt.toAddress = toLowerStr walletAddress →
      ∀ r, processAlethioTransaction walletAddress tt atx currencyCode =
          some r → r.nativeAmount = parseDecI atx.value) ∧
    (toLowerStr tt.fromAddress ≠ toLowerStr walletAddress →
      toLowerStr tt.toAddress ≠ toLowerStr walletAddress →
      processAlethioTransaction walletAddress tt atx currencyCode = none) := by
  refine ⟨?_, ?_, ?_, ?_, ?_, ?_, ?_, ?_, ?_⟩
  · intro hf hs
    simp only [processEtherscanTransaction]
    rw [if_pos hf, if_pos hs]
    ring
  · intro hf hs
    simp only [processEtherscanTransaction]
    rw [if_pos hf, if_neg hs]
    ring
  · intro hc
    simp only [processEtherscanTransaction]
    rw [if_pos hc]
  · intro hf
    simp only [processEtherscanTransaction]
    rw [if_neg hf]
    ring
  · intro hf hs r hr
    simp only [processAlethioTransaction, if_pos hf, if_pos hs] at hr
    injection hr with hr
    rw [← hr]
    ring
  · intro hf hs r hr
    simp only [processAlethioTransaction, if_pos hf, if_neg hs] at hr
    injection hr with hr
    rw [← hr]
    ring
  · intro hcc r hr
    simp only [processAlethioTransaction, if_neg hcc] at hr
    split at hr
    · injection hr with hr
      rw [← hr]
      exact ⟨rfl, rfl⟩
    · split at hr
      · injection hr with hr
        rw [← hr]
        exact ⟨rfl, rfl⟩
      · cases hr
  · intro hf ht r hr
    simp only [processAlethioTransaction, if_neg hf, if_pos ht] at hr
    injection hr with hr
    rw [← hr]
  · intro hf ht
    simp only [processAlethioTransaction, if_neg hf, if_neg ht]

/-- Witness for C7 at concrete records: an Etherscan self-send whose amount
is minus the fee, and an Alethio record involving the wallet on neither
side, which is dropped. -/
theorem C7_transaction_classification_witness :
    (processEtherscanTransaction "0xAB"
        { hash := "h", fromAddress := "0xab", toAddress := "0xAB",
          value := "7", gasPrice := "3", gasUsed := "4",
          contractAddress := "", blockNumber := "1", timeStamp := "2" }
        "ETH").nativeAmount =
      -(processEtherscanTransaction "0xAB"
        { hash := "h", fromAddress := "0xab", toAddress := "0xAB",
          value := "7", gasPrice := "3", gasUsed := "4",
          contractAddress := "", blockNumber := "1", timeStamp := "2" }
        "ETH").networkFee ∧
    processAlethioTransaction "0xAB"
        { fromAddress := "0xcd", toAddress := "0xef", globalRankBlock := 9 }
        { value := "7", fee := "3", txHash := "t", blockCreationTime := 1 }
        "ETH" = none := by
  have h := C7_transaction_classification "0xAB"
    { hash := "h", fromAddress := "0xab", toAddress := "0xAB",
      value := "7", gasPrice := "3", gasUsed := "4",
      contractAddress := "", blockNumber := "1", timeStamp := "2" }
    "ETH"
    { fromAddress := "0xcd", toAddress := "0xef", globalRankBlock := 9 }
    { value := "7", fee := "3", txHash := "t", blockCreationTime := 1 }
  exact ⟨h.1 (by decide) (by decide),
    h.2.2.2.2.2.2.2.2 (by decide) (by decide)⟩

/-- Model of `EthereumUtil.isValidAddress`: the string `0x` followed by
exactly 40 hexadecimal digits. -/
def isValidAddress (addr : String) : Bool :=
  match addr.data with
  | '0' :: 'x' :: rest => rest.length == 40 && rest.all isHexDigitChar
  | _ => false

/-- One spend target of an `EdgeSpendInfo`. -/
structure EdgeSpendTarget where
  publicAddress : String
  nativeAmount : String
deriving DecidableEq

/-- Spend-path errors of `makeSpend` (§7 of the design: `InvalidAddress`,
`InsufficientFunds`, `InvalidContract`, plus the single-output rule). -/
inductive SpendError where
  | onlyOneOutput : SpendError
  | invalidAddress : SpendError
  | tokenNotSupported : SpendError
  | insufficientFunds : SpendError
  | insufficientFundsForFee : SpendError
deriving DecidableEq

/-- Unsigned spend transaction produced by `makeSpend` (txid and date are
filled at signing time). -/
structure UnsignedTx where
  currencyCode : String
  nativeAmount : Int
  networkFee : Int
  parentNetworkFee : Option Int
  toAddress : String
deriving DecidableEq

/-- Embedding of `EthereumEngine.makeSpend` (ethEngine.js lines 833-947).
The superclass step of `common/engine.js` (outside the given source) only
normalizes the spend info and is modelled as pass-through; the
fee-estimation collaborator `calcMiningFee` is passed in as
`gasPrice`/`gasLimit`, and the token contract-address resolution as
`tokenContractAddress`.  The source mutates no wallet state inside
`makeSpend`, so the embedding returns only the transaction or the error.
Order of checks as in the source: exactly one spend target, then address
validity (both before any fee arithmetic), then the balance checks. -/
def makeSpend (st : WalletLocalData) (currencyCode : String)
    (spendTargets : List EdgeSpendTarget) (gasPrice gasLimit : Int)
    (tokenContractAddress : Option String) (byPassBalanceCheck : Bool) :
    Except SpendError UnsignedTx :=
  match spendTargets with
  | [spendTarget] =>
    if isValidAddress spendTarget.publicAddress then
      let nativeAmount := parseDecI spendTarget.nativeAmount
      let nativeNetworkFee := gasPrice * gasLimit
      let balanceEth :=
        parseDecI ((getVal st.totalBalances PRIMARY_CURRENCY).getD "0")
      if currencyCode = PRIMARY_CURRENCY then
        let totalTxAmount := nativeNetworkFee + nativeAmount
        if totalTxAmount > balanceEth ∧ byPassBalanceCheck = false then
          .error .insufficientFunds
        else
          .ok { currencyCode := currencyCode
                nativeAmount := totalTxAmount * (-1)
                networkFee := nativeNetworkFee
                parentNetworkFee := none
                toAddress := spendTarget.publicAddress }
      else
        match tokenContractAddress with
        | none => .error .tokenNotSupported
        | some contractAddress =>
          if nativeNetworkFee > balanceEth ∧ byPassBalanceCheck = false then
            .error .insufficientFundsForFee
          else
            let balanceToken :=
              parseDecI ((getVal st.totalBalances currencyCode).getD "0")
            if nativeAmount > balanceToken ∧ byPassBalanceCheck = false then
              .error .insufficientFunds
            else
              .ok { currencyCode := currencyCode
                    nativeAmount := nativeAmount * (-1)
                    networkFee := 0
                    parentNetworkFee := some nativeNetworkFee
                    toAddress := contractAddress }
    else .error .invalidAddress
  | _ => .error .onlyOneOutput

/-- C10: `makeSpend` rejects a spend whose target count differs from exactly
one with the single-output error, and a single target whose address is not
a valid Ethereum address with the invalid-address error — in both cases
for every fee input (the error is raised before any fee computation), and
no transaction is produced; the source mutates no wallet state in
`makeSpend`, so state is unchanged on these paths by construction. -/
theorem C10_makeSpend_validation (st : WalletLocalData)
    (currencyCode : String) (spendTargets : List EdgeSpendTarget)
    (gasPrice gasLimit : Int) (tokenContractAddress : Option String)
    (byPassBalanceCheck : Bool) :
    (spendTargets.length ≠ 1 →
      makeSpend st currencyCode spendTargets gasPrice gasLimit
        tokenContractAddress byPassBalanceCheck = .error .onlyOneOutput) ∧
    (∀ t, spendTargets = [t] → isValidAddress t.publicAddress = false →
      makeSpend st currencyCode spendTargets gasPrice gasLimit
        tokenContractAddress byPassBalanceCheck = .error .invalidAddress) := by
  constructor
  · intro h
    cases spendTargets with
    | nil => rfl
    | cons a l =>
      cases l with
      | nil => exact absurd rfl h
      | cons b l2 => rfl
  · intro t ht hv
    subst ht
    simp [makeSpend, hv]

/-- Witness for C10: two targets are rejected with the single-output error,
and a single malformed address with the invalid-address error. -/
theorem C10_makeSpend_validation_witness :
    makeSpend
        { blockHeight := 0
          otherData := { nextNonce := "0", unconfirmedNextNonce := "0" }
          totalBalances := [], lastTransactionQueryHeight := [] }
        "ETH"
        [{ publicAddress := "0xa", nativeAmount := "1" },
          { publicAddress := "0xb", nativeAmount := "2" }]
        3 4 none false = .error .onlyOneOutput ∧
    makeSpend
        { blockHeight := 0
          otherData := { nextNonce := "0", unconfirmedNextNonce := "0" }
          totalBalances := [], lastTransactionQueryHeight := [] }
        "ETH" [{ publicAddress := "nothex", nativeAmount := "1" }]
        3 4 none false = .error .invalidAddress := by
  have h := C10_makeSpend_validation
    { blockHeight := 0
      otherData := { nextNonce := "0", unconfirmedNextNonce := "0" }
      totalBalances := [], lastTransactionQueryHeight := [] }
    "ETH"
    [{ publicAddress := "0xa", nativeAmount := "1" },
      { publicAddress := "0xb", nativeAmount := "2" }]
    3 4 none false
  have h2 := C10_makeSpend_validation
    { blockHeight := 0
      otherData := { nextNonce := "0", unconfirmedNextNonce := "0" }
      totalBalances := [], lastTransactionQueryHeight := [] }
    "ETH" [{ publicAddress := "nothex", nativeAmount := "1" }]
    3 4 none false
  exact ⟨h.1 (by decide),
    h2.2 { publicAddress := "nothex", nativeAmount := "1" } rfl (by decide)⟩
